import Mathlib

/-!
Shallow embedding of `rl/callbacks.py` (keras-rl callbacks).

Modelling conventions:
* Python floats are modelled as `ℚ`; a float `NaN` metric value is modelled as
  `none` in `Option ℚ` (the code only ever tests metric values for NaN-ness).
* Python dictionaries keyed by episode identifier are modelled as total
  functions `Nat → Option α`; a missing key is `none` and reading a missing
  key raises `KeyError`, as in Python.
* Python exceptions are modelled by the `PyErr` type; a handler returns the
  state as mutated up to the point of the raise together with `some err`.
  In this file every raise in the source happens before any state mutation of
  the same call, so an erroring call returns the unchanged state.
* `timeit.default_timer()` values are supplied as explicit event arguments.
* Console output is modelled as returned data (summary records, progress-bar
  update records, rendered strings), never as IO.
-/

/-- Python exception kinds raised by the code paths modelled here. -/
inductive PyErr where
  | keyError
  | attributeError
  | indexError
  | valueError
  | zeroDivisionError
  | assertionError
  | typeError
deriving DecidableEq, Repr

/-! ### CallbackList (src/rl/callbacks.py lines 24-59)

Each of the four dispatch methods iterates over `self.callbacks`; for each
callback it tests `callable(getattr(callback, '<new name>', None))` and calls
the new-convention method if present, otherwise it calls the legacy method
`callback.<legacy name>(...)`.  The legacy attribute access itself raises
`AttributeError` when the callback has neither method. -/

/-- The four events dispatched by `CallbackList` with a new/legacy name pair. -/
inductive RlEvent where
  | episodeBegin
  | episodeEnd
  | stepBegin
  | stepEnd
deriving DecidableEq, Repr

/-- A callback object, abstracted to its capability set: which of the eight
method names it exposes as callable attributes. -/
structure PyCallback where
  has_on_episode_begin : Bool
  has_on_episode_end : Bool
  has_on_step_begin : Bool
  has_on_step_end : Bool
  has_on_epoch_begin : Bool
  has_on_epoch_end : Bool
  has_on_batch_begin : Bool
  has_on_batch_end : Bool
deriving DecidableEq, Repr

/-- New-convention method name for each event. -/
def newMethodName : RlEvent → String
  | .episodeBegin => "on_episode_begin"
  | .episodeEnd => "on_episode_end"
  | .stepBegin => "on_step_begin"
  | .stepEnd => "on_step_end"

/-- Legacy (Keras) method name the dispatch falls back to for each event. -/
def legacyMethodName : RlEvent → String
  | .episodeBegin => "on_epoch_begin"
  | .episodeEnd => "on_epoch_end"
  | .stepBegin => "on_batch_begin"
  | .stepEnd => "on_batch_end"

/-- `callable(getattr(callback, '<new name>', None))`. -/
def hasNewMethod (cb : PyCallback) : RlEvent → Bool
  | .episodeBegin => cb.has_on_episode_begin
  | .episodeEnd => cb.has_on_episode_end
  | .stepBegin => cb.has_on_step_begin
  | .stepEnd => cb.has_on_step_end

/-- Whether the legacy attribute exists on the callback. -/
def hasLegacyMethod (cb : PyCallback) : RlEvent → Bool
  | .episodeBegin => cb.has_on_epoch_begin
  | .episodeEnd => cb.has_on_epoch_end
  | .stepBegin => cb.has_on_batch_begin
  | .stepEnd => cb.has_on_batch_end

/-- A record of one method invocation performed by the dispatch loop:
which callback (by position in the list), which method name, and the two
arguments `(index, logs)` passed through.  The logs dictionary is opaque to
the dispatch, so it is modelled as an abstract token. -/
structure Invocation where
  cbIndex : Nat
  method : String
  firstArg : Nat
  logsArg : Nat
deriving DecidableEq, Repr

/-- The dispatch loop body, processing the remaining callbacks starting at
position `i0`.  Returns the invocations performed in order and the first
exception raised (an `AttributeError` from accessing a missing legacy
attribute), which aborts the loop as in Python. -/
def dispatchGo (ev : RlEvent) (index lg : Nat) : Nat → List PyCallback → List Invocation × Option PyErr
  | _, [] => ([], none)
  | i, cb :: rest =>
    if hasNewMethod cb ev = true then
      let r := dispatchGo ev index lg (i + 1) rest
      (⟨i, newMethodName ev, index, lg⟩ :: r.1, r.2)
    else if hasLegacyMethod cb ev = true then
      let r := dispatchGo ev index lg (i + 1) rest
      (⟨i, legacyMethodName ev, index, lg⟩ :: r.1, r.2)
    else
      ([], some PyErr.attributeError)

/-- `CallbackList.on_episode_begin` / `on_episode_end` / `on_step_begin` /
`on_step_end`: iterate over all registered callbacks from position `0`. -/
def dispatchList (ev : RlEvent) (cbs : List PyCallback) (index lg : Nat) :
    List Invocation × Option PyErr :=
  dispatchGo ev index lg 0 cbs

/-! ### TrainEpisodeLogger (src/rl/callbacks.py lines 73-162) -/

/-- A metric value: `none` models float NaN. -/
abbrev Met := Option ℚ

/-- The step-end log payload consumed by `TrainEpisodeLogger.on_step_end`
(besides the `episode` key, which is passed separately below). -/
structure StepLogs where
  observation : List (List ℚ)
  reward : ℚ
  action : ℚ
  metrics : List Met
deriving DecidableEq, Repr

/-- `TrainEpisodeLogger` state: five dictionaries keyed by episode identifier
plus the metric names captured from the model at train begin. -/
structure EpState where
  episode_start : Nat → Option ℚ
  observations : Nat → Option (List (List ℚ))
  rewards : Nat → Option (List ℚ)
  actions : Nat → Option (List ℚ)
  metrics : Nat → Option (List (List Met))
  metrics_names : List String

/-- Point update of a Python dictionary (`d[k] = v`, or `del d[k]` with
`none`). -/
def updMap {α : Type} (f : Nat → Option α) (k : Nat) (v : Option α) : Nat → Option α :=
  fun k2 => if k2 = k then v else f k2

/-- Fresh logger state (`TrainEpisodeLogger.__init__`, with `metrics_names`
as captured at `on_train_begin`). -/
def initEpState (names : List String) : EpState :=
  ⟨fun _ => none, fun _ => none, fun _ => none, fun _ => none, fun _ => none, names⟩

/-- `TrainEpisodeLogger.on_episode_begin`: record the start timestamp and
fresh empty buffers under the episode identifier. -/
def onEpisodeBegin (s : EpState) (episode : Nat) (t : ℚ) : EpState :=
  { s with
    episode_start := updMap s.episode_start episode (some t)
    observations := updMap s.observations episode (some [])
    rewards := updMap s.rewards episode (some [])
    actions := updMap s.actions episode (some [])
    metrics := updMap s.metrics episode (some []) }

/-- `TrainEpisodeLogger.on_step_end`: append the flattened observation, the
reward, the action and the metric vector to the buffers of `logs['episode']`.
Each dictionary subscript raises `KeyError` when the key is absent; the
subscript of each statement is evaluated before that statement's append, so
an absent key aborts before any further mutation. -/
def onStepEnd (s : EpState) (episode : Nat) (l : StepLogs) : EpState × Option PyErr :=
  match s.observations episode with
  | none => (s, some PyErr.keyError)
  | some obs =>
    let s1 := { s with observations := updMap s.observations episode (some (obs ++ [l.observation.flatten])) }
    match s1.rewards episode with
    | none => (s1, some PyErr.keyError)
    | some rs =>
      let s2 := { s1 with rewards := updMap s1.rewards episode (some (rs ++ [l.reward])) }
      match s2.actions episode with
      | none => (s2, some PyErr.keyError)
      | some acts =>
        let s3 := { s2 with actions := updMap s2.actions episode (some (acts ++ [l.action])) }
        match s3.metrics episode with
        | none => (s3, some PyErr.keyError)
        | some ms =>
          ({ s3 with metrics := updMap s3.metrics episode (some (ms ++ [l.metrics])) }, none)

/-- How one metric is rendered in the episode summary: a numeric value
(printed with the `{:f}` format) or the `'--'` placeholder substituted when
`np.nanmean` over the column raised a Warning (all-NaN column). -/
inductive MetricCell where
  | num (v : ℚ)
  | dashes
deriving DecidableEq, Repr

/-- Column `idx` of a list of metric rows (`metrics[:, idx]` on the rectangular
array), ignoring bounds. -/
def npColumnD (rows : List (List Met)) (idx : Nat) : List Met :=
  rows.map (fun r => r.getD idx none)

/-- `np.nanmean` over one column: the mean of the non-NaN entries, or NaN
(`none`, raising the warning caught by the summary loop) when there are none. -/
def nanmeanList (col : List Met) : Met :=
  let vs := col.filterMap id
  if vs = [] then none else some (vs.sum / (vs.length : ℚ))

/-- `np.array(rows)[:, idx]`: raises `IndexError` when the array is empty
(shape `(0,)`), ragged (object array, one-dimensional), or `idx` is out of
range; otherwise yields the column. -/
def npColumn (rows : List (List Met)) (idx : Nat) : Except PyErr (List Met) :=
  match rows with
  | [] => Except.error PyErr.indexError
  | r :: rest =>
    if (∀ x ∈ rest, x.length = r.length) ∧ idx < r.length then
      Except.ok (npColumnD (r :: rest) idx)
    else
      Except.error PyErr.indexError

/-- The rendering of one metric column in the summary: `'--'` when the
column-wise `np.nanmean` raised the all-NaN warning, else the numeric mean. -/
def metricCell (rows : List (List Met)) (idx : Nat) : MetricCell :=
  match nanmeanList (npColumnD rows idx) with
  | none => MetricCell.dashes
  | some v => MetricCell.num v

/-- The metric-formatting loop of `TrainEpisodeLogger.on_episode_end`
(lines 112-128), over the remaining metric names starting at column `idx`:
for each name take column `idx` of the recorded metric rows (`IndexError`
propagates) and render nanmean-or-placeholder. -/
def formatMetricsGo (rows : List (List Met)) : Nat → List String → Except PyErr (List (String × MetricCell))
  | _, [] => Except.ok []
  | idx, name :: rest =>
    match npColumn rows idx with
    | Except.error e => Except.error e
    | Except.ok _ =>
      match formatMetricsGo rows (idx + 1) rest with
      | Except.error e => Except.error e
      | Except.ok cells => Except.ok ((name, metricCell rows idx) :: cells)

/-- Format all metric columns of an episode against the declared names. -/
def formatMetrics (names : List String) (rows : List (List Met)) :
    Except PyErr (List (String × MetricCell)) :=
  formatMetricsGo rows 0 names

/-- `np.min` of a list: `ValueError` on an empty list (zero-size reduction). -/
def npMin (xs : List ℚ) : Except PyErr ℚ :=
  match xs with
  | [] => Except.error PyErr.valueError
  | x :: rest => Except.ok (rest.foldl min x)

/-- `np.max` of a list: `ValueError` on an empty list (zero-size reduction). -/
def npMax (xs : List ℚ) : Except PyErr ℚ :=
  match xs with
  | [] => Except.error PyErr.valueError
  | x :: rest => Except.ok (rest.foldl max x)

/-- The episode-end summary record, one field per template placeholder of
line 130, in template order. -/
structure Summary where
  episode : Nat
  duration : ℚ
  steps : Nat
  sps : ℚ
  episode_reward : ℚ
  reward_mean : ℚ
  reward_min : ℚ
  reward_max : ℚ
  action_mean : ℚ
  action_min : ℚ
  action_max : ℚ
  obs_mean : ℚ
  obs_min : ℚ
  obs_max : ℚ
  metrics : List (String × MetricCell)
deriving DecidableEq, Repr, Inhabited

/-- The computation part of `TrainEpisodeLogger.on_episode_end` (everything
before the `del` statements), with the source's evaluation order of the
fallible operations: `episode_start[episode]`, `observations[episode]`,
`metrics[episode]`, the metric formatting loop, the `float(steps)/duration`
division, then `rewards[episode]` with its min/max, `actions[episode]` with
its min/max, and the observation min/max over the flattened observations. -/
def epEndCompute (s : EpState) (episode : Nat) (t : ℚ) : Except PyErr Summary :=
  match s.episode_start episode with
  | none => Except.error PyErr.keyError
  | some start =>
    let duration := t - start
    match s.observations episode with
    | none => Except.error PyErr.keyError
    | some obs =>
      let steps := obs.length
      match s.metrics episode with
      | none => Except.error PyErr.keyError
      | some rows =>
        match formatMetrics s.metrics_names rows with
        | Except.error e => Except.error e
        | Except.ok cells =>
          if duration = 0 then Except.error PyErr.zeroDivisionError
          else
            match s.rewards episode with
            | none => Except.error PyErr.keyError
            | some rws =>
              match npMin rws with
              | Except.error e => Except.error e
              | Except.ok rmin =>
                match npMax rws with
                | Except.error e => Except.error e
                | Except.ok rmax =>
                  match s.actions episode with
                  | none => Except.error PyErr.keyError
                  | some acts =>
                    match npMin acts with
                    | Except.error e => Except.error e
                    | Except.ok amin =>
                      match npMax acts with
                      | Except.error e => Except.error e
                      | Except.ok amax =>
                        let obsFlat := obs.flatten
                        match npMin obsFlat with
                        | Except.error e => Except.error e
                        | Except.ok omin =>
                          match npMax obsFlat with
                          | Except.error e => Except.error e
                          | Except.ok omax =>
                            Except.ok
                              { episode := episode + 1
                                duration := duration
                                steps := steps
                                sps := (steps : ℚ) / duration
                                episode_reward := rws.sum
                                reward_mean := rws.sum / (rws.length : ℚ)
                                reward_min := rmin
                                reward_max := rmax
                                action_mean := acts.sum / (acts.length : ℚ)
                                action_min := amin
                                action_max := amax
                                obs_mean := obsFlat.sum / (obsFlat.length : ℚ)
                                obs_min := omin
                                obs_max := omax
                                metrics := cells }

/-- The `del` block at the end of `on_episode_end` (lines 150-155). -/
def purge (s : EpState) (episode : Nat) : EpState :=
  { s with
    episode_start := updMap s.episode_start episode none
    observations := updMap s.observations episode none
    rewards := updMap s.rewards episode none
    actions := updMap s.actions episode none
    metrics := updMap s.metrics episode none }

/-- Result of an `on_episode_end` call: the state afterwards, the exception
raised if any, and the emitted summary (tagged with its episode identifier)
if the call completed. -/
structure EpEndResult where
  state : EpState
  err : Option PyErr
  out : Option (Nat × Summary)

/-- `TrainEpisodeLogger.on_episode_end`: compute and print the summary, then
delete the episode's buffers.  All fallible operations precede the deletes,
so an exception leaves the state unchanged. -/
def onEpisodeEnd (s : EpState) (episode : Nat) (t : ℚ) : EpEndResult :=
  match epEndCompute s episode t with
  | Except.error e => ⟨s, some e, none⟩
  | Except.ok summ => ⟨purge s episode, none, some (episode, summ)⟩

/-- The events fed to `TrainEpisodeLogger` by the training loop, with the
clock value attached to the timestamped ones. -/
inductive Ev where
  | epBegin (ep : Nat) (t : ℚ)
  | stepEnd (ep : Nat) (l : StepLogs)
  | epEnd (ep : Nat) (t : ℚ)
deriving DecidableEq, Repr

/-- The episode identifier an event is attributed to. -/
def evEpisode : Ev → Nat
  | .epBegin ep _ => ep
  | .stepEnd ep _ => ep
  | .epEnd ep _ => ep

/-- Outcome of processing a single event. -/
structure PEOut where
  state : EpState
  err : Option PyErr
  out : Option (Nat × Summary)

/-- Dispatch one event to the corresponding `TrainEpisodeLogger` handler. -/
def processEv (s : EpState) (e : Ev) : PEOut :=
  match e with
  | .epBegin ep t => ⟨onEpisodeBegin s ep t, none, none⟩
  | .stepEnd ep l => ⟨(onStepEnd s ep l).1, (onStepEnd s ep l).2, none⟩
  | .epEnd ep t => ⟨(onEpisodeEnd s ep t).state, (onEpisodeEnd s ep t).err, (onEpisodeEnd s ep t).out⟩

/-- Outcome of a run: final state, emitted summaries in order, and the first
uncaught exception if one aborted the run. -/
structure RunOut where
  state : EpState
  out : List (Nat × Summary)
  err : Option PyErr

/-- Process a list of events in order, stopping at the first exception
(which would propagate out of the training loop). -/
def runEvents (s : EpState) : List Ev → RunOut
  | [] => ⟨s, [], none⟩
  | e :: es =>
    match (processEv s e).err with
    | some er => ⟨(processEv s e).state, (processEv s e).out.toList, some er⟩
    | none =>
      ⟨(runEvents (processEv s e).state es).state,
       (processEv s e).out.toList ++ (runEvents (processEv s e).state es).out,
       (runEvents (processEv s e).state es).err⟩

/-- The five buffers stored under one episode identifier. -/
def bufAt (s : EpState) (episode : Nat) :
    Option ℚ × Option (List (List ℚ)) × Option (List ℚ) × Option (List ℚ) × Option (List (List Met)) :=
  (s.episode_start episode, s.observations episode, s.rewards episode,
   s.actions episode, s.metrics episode)

/-- Order-preserving interleaving of two lists. -/
inductive Interleave : List Ev → List Ev → List Ev → Prop where
  | nil : Interleave [] [] []
  | left {a l1 l2 l} : Interleave l1 l2 l → Interleave (a :: l1) l2 (a :: l)
  | right {a l1 l2 l} : Interleave l1 l2 l → Interleave l1 (a :: l2) (a :: l)

/-! ### TrainIntervalLogger (src/rl/callbacks.py lines 164-217) -/

/-- The Keras progress bar, abstracted to its construction target and the
sequence of `update(current, values)` calls it received.  An update value is
a `(label, value)` pair; a metric value may be NaN (`none`). -/
structure Progbar where
  target : Nat
  updates : List (Nat × List (String × Met))
deriving DecidableEq, Repr

/-- `TrainIntervalLogger` state. -/
structure IntervalState where
  interval : Nat
  steps : Nat
  interval_start : ℚ
  progbar : Progbar
  metrics : List (List Met)
  metrics_names : List String
deriving DecidableEq, Repr

/-- `TrainIntervalLogger.reset`: new start timestamp, a fresh progress bar
targeting the window size, and a cleared metric buffer. -/
def intervalReset (s : IntervalState) (t : ℚ) : IntervalState :=
  { s with interval_start := t, progbar := ⟨s.interval, []⟩, metrics := [] }

/-- `TrainIntervalLogger.__init__` followed by the `on_train_begin` capture of
the metric names: `self.steps = 0` and `self.reset()` at clock value `t`. -/
def initIntervalState (interval : Nat) (names : List String) (t : ℚ) : IntervalState :=
  intervalReset ⟨interval, 0, t, ⟨interval, []⟩, [], names⟩ t

/-- Result of `TrainIntervalLogger.on_step_begin`: the state afterwards, the
exception if any, and whether the interval-start marker line was printed. -/
structure IStepBeginOut where
  state : IntervalState
  err : Option PyErr
  printed : Bool
deriving DecidableEq, Repr

/-- `TrainIntervalLogger.on_step_begin`: `if self.steps % self.interval == 0:
self.reset(); print(...)`.  The Python `%` raises `ZeroDivisionError` when the
interval is `0`. -/
def onIntervalStepBegin (s : IntervalState) (t : ℚ) : IStepBeginOut :=
  if s.interval = 0 then ⟨s, some PyErr.zeroDivisionError, false⟩
  else if s.steps % s.interval = 0 then ⟨intervalReset s t, none, true⟩
  else ⟨s, none, false⟩

/-- `np.nanmean(rows, axis=0)`: requires a rectangular array (a ragged list
becomes a one-dimensional object array, on which nanmean raises `TypeError`);
yields the column-wise nanmean vector, NaN for all-NaN columns. -/
def npNanmeanAxis0 (rows : List (List Met)) : Except PyErr (List Met) :=
  match rows with
  | [] => Except.error PyErr.valueError
  | r :: rest =>
    if ∀ x ∈ rest, x.length = r.length then
      Except.ok ((List.range r.length).map (fun i => nanmeanList (npColumnD (r :: rest) i)))
    else
      Except.error PyErr.typeError

/-- One iteration of the NaN-substitution loop of
`TrainIntervalLogger.on_step_end`: a non-NaN value is kept; a NaN value stays
NaN when the window buffer is empty, otherwise `means = np.nanmean(self.metrics,
axis=0)` is computed, its shape is asserted against the declared metric names,
and `means[idx]` is substituted. -/
def filteredAt (buffer : List (List Met)) (names : List String) (idx : Nat) (v : Met) :
    Except PyErr Met :=
  match v with
  | some x => Except.ok (some x)
  | none =>
    if buffer.isEmpty then Except.ok none
    else
      match npNanmeanAxis0 buffer with
      | Except.error e => Except.error e
      | Except.ok means =>
        if means.length = names.length then
          match means.get? idx with
          | some m => Except.ok m
          | none => Except.error PyErr.indexError
        else Except.error PyErr.assertionError

/-- The NaN-substitution loop over the metric vector of the current step,
with `idx` the index of the first remaining entry. -/
def computeFilteredGo (buffer : List (List Met)) (names : List String) :
    Nat → List Met → Except PyErr (List Met)
  | _, [] => Except.ok []
  | idx, v :: vs =>
    match filteredAt buffer names idx v with
    | Except.error e => Except.error e
    | Except.ok m =>
      match computeFilteredGo buffer names (idx + 1) vs with
      | Except.error e => Except.error e
      | Except.ok rest => Except.ok (m :: rest)

/-- `filtered_metrics` as computed by `TrainIntervalLogger.on_step_end`. -/
def computeFiltered (buffer : List (List Met)) (names : List String) (raw : List Met) :
    Except PyErr (List Met) :=
  computeFilteredGo buffer names 0 raw

/-- The intended value of one substituted metric: keep a non-NaN value; for a
NaN value substitute the column-wise nanmean of the vectors buffered so far in
the window, or NaN itself if the window buffer is empty. -/
def filteredSpec (buffer : List (List Met)) (idx : Nat) (v : Met) : Met :=
  match v with
  | some x => some x
  | none => if buffer.isEmpty then none else nanmeanList (npColumnD buffer idx)

/-- `filteredSpec` applied across a metric vector starting at column `idx`. -/
def filteredSpecList (buffer : List (List Met)) : Nat → List Met → List Met
  | _, [] => []
  | idx, v :: vs => filteredSpec buffer idx v :: filteredSpecList buffer (idx + 1) vs

/-- Result of `TrainIntervalLogger.on_step_end`: state afterwards, exception
if any, the `filtered_metrics` list built by the loop, and the `values`
passed to `progbar.update`. -/
structure IStepEndOut where
  state : IntervalState
  err : Option PyErr
  filtered : List Met
  values : List (String × Met)
deriving DecidableEq, Repr

/-- `TrainIntervalLogger.on_step_end`: substitute NaN metrics from the window
mean, update the progress bar with the reward (and, only when no NaN remains
among the filtered metrics, the named filtered metrics), increment the step
counter, and append the raw metric vector to the window buffer.  The
`self.steps % self.interval` inside the progbar update raises
`ZeroDivisionError` when the interval is `0`, before any mutation. -/
def intervalOnStepEnd (s : IntervalState) (reward : ℚ) (raw : List Met) : IStepEndOut :=
  match computeFiltered s.metrics s.metrics_names raw with
  | Except.error e => ⟨s, some e, [], []⟩
  | Except.ok filtered =>
    let noNan : Bool := filtered.all (fun m => m.isSome)
    let values := ("reward", (some reward : Met)) ::
      (if noNan then (s.metrics_names.zip filtered).map (fun p => (p.1, p.2)) else [])
    if s.interval = 0 then ⟨s, some PyErr.zeroDivisionError, filtered, values⟩
    else
      ⟨{ s with
          progbar := ⟨s.progbar.target, s.progbar.updates ++ [((s.steps % s.interval) + 1, values)]⟩
          steps := s.steps + 1
          metrics := s.metrics ++ [raw] },
        none, filtered, values⟩

/-! ### Summary rendering (the template of line 130 and the `{:f}` metric
format of lines 123/126) -/

/-- Floor of a rational, computed directly on the numerator/denominator. -/
def qfloor (q : ℚ) : Int := Int.fdiv q.num (q.den : Int)

/-- Round to the nearest integer, ties to even: the rounding used by Python's
fixed-point float formatting. -/
def roundHalfEven (q : ℚ) : Int :=
  let f := qfloor q
  let r : ℚ := q - (f : ℚ)
  if r < 1 / 2 then f
  else if 1 / 2 < r then f + 1
  else if f % 2 = 0 then f else f + 1

/-- A natural number rendered in decimal, left-padded with zeros to `k`
digits. -/
def natDigitsPadded (n : Nat) (k : Nat) : String :=
  let s := toString n
  String.mk (List.replicate (k - s.length) '0') ++ s

/-- Python's fixed-point format of a rational to `k` decimal places
(`'...:.kf...'.format(x)`), ties to even. -/
def formatFixed (q : ℚ) (k : Nat) : String :=
  let n : Int := roundHalfEven (q * (10 : ℚ) ^ k)
  let sign : String := if n < 0 then "-" else ""
  let m : Nat := n.natAbs
  if k = 0 then sign ++ toString m
  else sign ++ toString (m / 10 ^ k) ++ "." ++ natDigitsPadded (m % 10 ^ k) k

/-- The metrics portion of the summary line: per metric either
`'<name>: <value:f>'` (six decimal places) or `'<name>: --'`, joined by
`', '`. -/
def renderMetricsText (cells : List (String × MetricCell)) : String :=
  String.intercalate ", "
    (cells.map (fun c =>
      c.1 ++ ": " ++ (match c.2 with
        | MetricCell.dashes => "--"
        | MetricCell.num v => formatFixed v 6)))

/-- The fixed summary template of `TrainEpisodeLogger.on_episode_end`
(line 130), with its field order and per-field rounding: three decimal places
for the duration and the reward/action/observation statistics, plain integer
for the step count, zero decimal places for steps per second. -/
def renderSummary (su : Summary) : String :=
  "Episode " ++ toString su.episode ++ ": " ++ formatFixed su.duration 3 ++
  "s, steps: " ++ toString su.steps ++
  ", steps per second: " ++ formatFixed su.sps 0 ++
  ", episode reward: " ++ formatFixed su.episode_reward 3 ++
  ", reward: " ++ formatFixed su.reward_mean 3 ++
  " [" ++ formatFixed su.reward_min 3 ++ ", " ++ formatFixed su.reward_max 3 ++
  "], action: " ++ formatFixed su.action_mean 3 ++
  " [" ++ formatFixed su.action_min 3 ++ ", " ++ formatFixed su.action_max 3 ++
  "], observations: " ++ formatFixed su.obs_mean 3 ++
  " [" ++ formatFixed su.obs_min 3 ++ ", " ++ formatFixed su.obs_max 3 ++
  "], " ++ renderMetricsText su.metrics

/-! ## Theorems -/

section MainTheorems

attribute [local semireducible] Rat.add Rat.mul Rat.sub Rat.inv Rat.ofScientific

theorem updMap_self {α : Type} (f : Nat → Option α) (k : Nat) (v : Option α) :
    updMap f k v k = v := by
  simp [updMap]

theorem updMap_ne {α : Type} (f : Nat → Option α) (k : Nat) (v : Option α) (k2 : Nat)
    (h : k2 ≠ k) : updMap f k v k2 = f k2 := by
  simp [updMap, h]

theorem dispatchGo_spec (ev : RlEvent) (index lg : Nat) :
    ∀ (cbs : List PyCallback) (i0 : Nat),
      (dispatchGo ev index lg i0 cbs).2 = none →
      (dispatchGo ev index lg i0 cbs).1.length = cbs.length ∧
      ∀ k cb, cbs.get? k = some cb →
        (dispatchGo ev index lg i0 cbs).1.get? k =
          some (if hasNewMethod cb ev = true then
                  ⟨i0 + k, newMethodName ev, index, lg⟩
                else ⟨i0 + k, legacyMethodName ev, index, lg⟩) := by
  intro cbs
  induction cbs with
  | nil =>
    intro i0 _
    refine ⟨rfl, ?_⟩
    intro k cb hk
    simp at hk
  | cons c rest ih =>
    intro i0 h
    by_cases hn : hasNewMethod c ev = true
    · have h2 : (dispatchGo ev index lg (i0 + 1) rest).2 = none := by
        simpa [dispatchGo, hn] using h
      obtain ⟨hlen, hget⟩ := ih (i0 + 1) h2
      refine ⟨by simp [dispatchGo, hn, hlen], ?_⟩
      intro k cb hk
      cases k with
      | zero =>
        simp only [List.get?_cons_zero, Option.some.injEq] at hk
        subst hk
        simp [dispatchGo, hn]
      | succ k2 =>
        simp only [List.get?_cons_succ] at hk
        have h3 := hget k2 cb hk
        simp only [dispatchGo, hn, if_true, List.get?_cons_succ]
        rw [h3]
        have : i0 + 1 + k2 = i0 + (k2 + 1) := by omega
        rw [this]
    · by_cases hl : hasLegacyMethod c ev = true
      · have h2 : (dispatchGo ev index lg (i0 + 1) rest).2 = none := by
          simpa [dispatchGo, hn, hl] using h
        obtain ⟨hlen, hget⟩ := ih (i0 + 1) h2
        refine ⟨by simp [dispatchGo, hn, hl, hlen], ?_⟩
        intro k cb hk
        cases k with
        | zero =>
          simp only [List.get?_cons_zero, Option.some.injEq] at hk
          subst hk
          simp [dispatchGo, hn, hl]
        | succ k2 =>
          simp only [List.get?_cons_succ] at hk
          have h3 := hget k2 cb hk
          simp only [dispatchGo, hn, hl, if_true, Bool.false_eq_true, if_false,
            List.get?_cons_succ]
          rw [h3]
          have : i0 + 1 + k2 = i0 + (k2 + 1) := by omega
          rw [this]
      · simp [dispatchGo, hn, hl] at h

/-- C1: for each of the four dispatched events, when the dispatch loop
completes, every registered callback received exactly one invocation, chosen
independently per callback: the new-convention method with arguments
`(index, logs)` when that callback exposes it, otherwise the legacy-convention
method with the same arguments.  A list mixing variants therefore dispatches
each callback by its own capability. -/
theorem callback_dispatch_per_callback (ev : RlEvent) (cbs : List PyCallback) (index lg : Nat)
    (hok : (dispatchList ev cbs index lg).2 = none) :
    (dispatchList ev cbs index lg).1.length = cbs.length ∧
    ∀ k cb, cbs.get? k = some cb →
      (dispatchList ev cbs index lg).1.get? k =
        some (if hasNewMethod cb ev = true then ⟨k, newMethodName ev, index, lg⟩
              else ⟨k, legacyMethodName ev, index, lg⟩) := by
  have h := dispatchGo_spec ev index lg cbs 0 (by simpa [dispatchList] using hok)
  simpa [dispatchList, Nat.zero_add] using h

def cbNewStyle : PyCallback := ⟨true, true, true, true, false, false, false, false⟩

def cbLegacyStyle : PyCallback := ⟨false, false, false, false, true, true, true, true⟩

def cbEmpty : PyCallback := ⟨false, false, false, false, false, false, false, false⟩

/-- Witness for C1: a mixed list (a new-convention callback followed by a
legacy-only callback) dispatches the first through `on_episode_begin` and the
second through `on_epoch_begin`, each with the same `(index, logs)`. -/
theorem callback_dispatch_per_callback_witness :
    (dispatchList RlEvent.episodeBegin [cbNewStyle, cbLegacyStyle] 3 7).2 = none ∧
    (dispatchList RlEvent.episodeBegin [cbNewStyle, cbLegacyStyle] 3 7).1.get? 0 =
      some ⟨0, "on_episode_begin", 3, 7⟩ ∧
    (dispatchList RlEvent.episodeBegin [cbNewStyle, cbLegacyStyle] 3 7).1.get? 1 =
      some ⟨1, "on_epoch_begin", 3, 7⟩ := by
  refine ⟨by decide, ?_, ?_⟩
  · have h := (callback_dispatch_per_callback RlEvent.episodeBegin
      [cbNewStyle, cbLegacyStyle] 3 7 (by decide)).2 0 cbNewStyle (by decide)
    rw [h]; decide
  · have h := (callback_dispatch_per_callback RlEvent.episodeBegin
      [cbNewStyle, cbLegacyStyle] 3 7 (by decide)).2 1 cbLegacyStyle (by decide)
    rw [h]; decide

theorem dispatchGo_missing (ev : RlEvent) (index lg : Nat) :
    ∀ (cbs : List PyCallback) (i0 k : Nat) (cb : PyCallback),
      cbs.get? k = some cb → hasNewMethod cb ev = false → hasLegacyMethod cb ev = false →
      (dispatchGo ev index lg i0 cbs).2 = some PyErr.attributeError ∧
      ∀ inv ∈ (dispatchGo ev index lg i0 cbs).1, inv.cbIndex < i0 + k := by
  intro cbs
  induction cbs with
  | nil =>
    intro i0 k cb hk
    simp at hk
  | cons c rest ih =>
    intro i0 k cb hk hn hl
    cases k with
    | zero =>
      simp only [List.get?_cons_zero, Option.some.injEq] at hk
      subst hk
      refine ⟨by simp [dispatchGo, hn, hl], ?_⟩
      intro inv hm
      simp [dispatchGo, hn, hl] at hm
    | succ k2 =>
      simp only [List.get?_cons_succ] at hk
      by_cases hcn : hasNewMethod c ev = true
      · obtain ⟨he, hmem⟩ := ih (i0 + 1) k2 cb hk hn hl
        refine ⟨by simpa [dispatchGo, hcn] using he, ?_⟩
        intro inv hm
        simp only [dispatchGo, hcn, if_true] at hm
        rcases List.mem_cons.mp hm with h1 | h1
        · subst h1; simp
        · have := hmem inv h1; omega
      · by_cases hcl : hasLegacyMethod c ev = true
        · obtain ⟨he, hmem⟩ := ih (i0 + 1) k2 cb hk hn hl
          refine ⟨by simpa [dispatchGo, hcn, hcl] using he, ?_⟩
          intro inv hm
          simp only [dispatchGo, hcn, hcl, Bool.false_eq_true, if_false, if_true] at hm
          rcases List.mem_cons.mp hm with h1 | h1
          · subst h1; simp
          · have := hmem inv h1; omega
        · refine ⟨by simp [dispatchGo, hcn, hcl], ?_⟩
          intro inv hm
          simp [dispatchGo, hcn, hcl] at hm

/-- C2: when some registered callback exposes neither the new-convention nor
the legacy-convention method for an event, dispatching that event raises an
`AttributeError` (the unimplemented-capability signal, from the attempt to
access the missing legacy attribute) instead of silently skipping that
callback: the dispatch reports the error and performs no invocation on that
callback. -/
theorem missing_capability_fails_loudly (ev : RlEvent) (cbs : List PyCallback)
    (index lg k : Nat) (cb : PyCallback) (hget : cbs.get? k = some cb)
    (hn : hasNewMethod cb ev = false) (hl : hasLegacyMethod cb ev = false) :
    (dispatchList ev cbs index lg).2 = some PyErr.attributeError ∧
    ∀ inv ∈ (dispatchList ev cbs index lg).1, inv.cbIndex ≠ k := by
  obtain ⟨he, hmem⟩ := dispatchGo_missing ev index lg cbs 0 k cb hget hn hl
  refine ⟨by simpa [dispatchList] using he, ?_⟩
  intro inv hm
  have := hmem inv (by simpa [dispatchList] using hm)
  omega

/-- Witness for C2: a list containing a callback with no capability at all
makes `on_step_end` dispatch raise `AttributeError`. -/
theorem missing_capability_fails_loudly_witness :
    [cbNewStyle, cbEmpty].get? 1 = some cbEmpty ∧
    (dispatchList RlEvent.stepEnd [cbNewStyle, cbEmpty] 3 7).2 = some PyErr.attributeError := by
  refine ⟨by decide, ?_⟩
  exact (missing_capability_fails_loudly RlEvent.stepEnd [cbNewStyle, cbEmpty] 3 7 1 cbEmpty
    (by decide) (by decide) (by decide)).1

theorem runEvents_append (s : EpState) (xs ys : List Ev) :
    runEvents s (xs ++ ys) =
      if (runEvents s xs).err = none then
        ⟨(runEvents (runEvents s xs).state ys).state,
         (runEvents s xs).out ++ (runEvents (runEvents s xs).state ys).out,
         (runEvents (runEvents s xs).state ys).err⟩
      else runEvents s xs := by
  induction xs generalizing s with
  | nil => simp [runEvents]
  | cons e es ih =>
    cases herr : (processEv s e).err with
    | some er =>
      simp [runEvents, herr]
    | none =>
      simp only [List.cons_append, runEvents, herr, List.append_eq]
      rw [ih]
      by_cases h2 : (runEvents (processEv s e).state es).err = none
      · simp [h2, List.append_assoc]
      · simp [h2, runEvents, herr]

/-- C10: a `TrainEpisodeLogger.on_step_end` whose `logs['episode']` names an
episode with no live buffers (no episode-begin since construction or since the
last episode-end) raises `KeyError` on the first dictionary subscript, and
leaves the logger state — every episode's buffers — unchanged. -/
theorem step_end_unknown_episode_raises (s : EpState) (E : Nat) (l : StepLogs)
    (h1 : s.episode_start E = none) (h2 : s.observations E = none)
    (h3 : s.rewards E = none) (h4 : s.actions E = none) (h5 : s.metrics E = none) :
    onStepEnd s E l = (s, some PyErr.keyError) := by
  simp [onStepEnd, h2]

/-- Witness for C10 at the freshly constructed logger. -/
theorem step_end_unknown_episode_raises_witness :
    onStepEnd (initEpState []) 0 ⟨[[1]], 1, 1, []⟩ = (initEpState [], some PyErr.keyError) :=
  step_end_unknown_episode_raises (initEpState []) 0 ⟨[[1]], 1, 1, []⟩ rfl rfl rfl rfl rfl

def evsNoStep : List Ev := [Ev.epBegin 0 0, Ev.epEnd 0 1]

/-- Counterexample to C3 as stated: with one declared metric name, an
episode-begin followed immediately by an episode-end (zero step-ends, which
the claim's "any number" includes) raises `IndexError` inside the metric
formatting (`np.array([])[:, 0]`), so the `del` statements are never reached
and the observation buffer for the episode is still present afterwards. -/
theorem episode_end_zero_steps_leaks :
    (runEvents (initEpState ["loss"]) evsNoStep).state.observations 0 = some [] ∧
    (runEvents (initEpState ["loss"]) evsNoStep).err = some PyErr.indexError := by
  exact ⟨by decide, by decide⟩

/-- C3 (amended): after an episode-begin for `E`, any number of step-ends and
an episode-end for `E`, *provided the episode-end completed without raising*
(which requires at least one recorded step and a nonzero duration), every
per-episode buffer keyed by `E` — start timestamp, observations, rewards,
actions, metric vectors — is absent from the logger state. -/
theorem episode_end_purges_buffers (s0 : EpState) (evs : List Ev) (E : Nat) (t : ℚ)
    (hok : (runEvents s0 (evs ++ [Ev.epEnd E t])).err = none) :
    (runEvents s0 (evs ++ [Ev.epEnd E t])).state.episode_start E = none ∧
    (runEvents s0 (evs ++ [Ev.epEnd E t])).state.observations E = none ∧
    (runEvents s0 (evs ++ [Ev.epEnd E t])).state.rewards E = none ∧
    (runEvents s0 (evs ++ [Ev.epEnd E t])).state.actions E = none ∧
    (runEvents s0 (evs ++ [Ev.epEnd E t])).state.metrics E = none := by
  rw [runEvents_append] at hok ⊢
  by_cases h : (runEvents s0 evs).err = none
  · rw [if_pos h] at hok ⊢
    cases herr : (processEv (runEvents s0 evs).state (Ev.epEnd E t)).err with
    | some er => simp [runEvents, herr] at hok
    | none =>
      have hstate : (runEvents (runEvents s0 evs).state [Ev.epEnd E t]).state =
          (processEv (runEvents s0 evs).state (Ev.epEnd E t)).state := by
        simp [runEvents, herr]
      simp only [hstate]
      cases hc : epEndCompute (runEvents s0 evs).state E t with
      | error e => simp [processEv, onEpisodeEnd, hc] at herr
      | ok summ => simp [processEv, onEpisodeEnd, hc, purge, updMap]
  · rw [if_neg h] at hok
    exact absurd hok h

def evsOneStep : List Ev := [Ev.epBegin 0 0, Ev.stepEnd 0 ⟨[[1]], 1, 1, [some 1]⟩]

/-- Witness for C3 (amended): a one-step episode whose episode-end succeeds
leaves no buffer for its identifier. -/
theorem episode_end_purges_buffers_witness :
    (runEvents (initEpState ["loss"]) (evsOneStep ++ [Ev.epEnd 0 1])).state.episode_start 0 = none ∧
    (runEvents (initEpState ["loss"]) (evsOneStep ++ [Ev.epEnd 0 1])).state.observations 0 = none ∧
    (runEvents (initEpState ["loss"]) (evsOneStep ++ [Ev.epEnd 0 1])).state.rewards 0 = none ∧
    (runEvents (initEpState ["loss"]) (evsOneStep ++ [Ev.epEnd 0 1])).state.actions 0 = none ∧
    (runEvents (initEpState ["loss"]) (evsOneStep ++ [Ev.epEnd 0 1])).state.metrics 0 = none :=
  episode_end_purges_buffers (initEpState ["loss"]) evsOneStep 0 1 (by decide)

theorem npColumn_err (rows : List (List Met)) (idx : Nat) (e : PyErr)
    (h : npColumn rows idx = Except.error e) : e = PyErr.indexError := by
  cases rows with
  | nil => simpa [npColumn] using h.symm
  | cons r rest =>
    simp only [npColumn] at h
    split at h
    · simp at h
    · simpa using h.symm

theorem formatMetricsGo_err (rows : List (List Met)) :
    ∀ (names : List String) (idx : Nat) (e : PyErr),
      formatMetricsGo rows idx names = Except.error e → e = PyErr.indexError := by
  intro names
  induction names with
  | nil => intro idx e h; simp [formatMetricsGo] at h
  | cons n rest ih =>
    intro idx e h
    simp only [formatMetricsGo] at h
    cases hcol : npColumn rows idx with
    | error e2 =>
      simp only [hcol, Except.error.injEq] at h
      exact h ▸ npColumn_err rows idx e2 hcol
    | ok col =>
      simp only [hcol] at h
      cases hrec : formatMetricsGo rows (idx + 1) rest with
      | error e2 =>
        simp only [hrec, Except.error.injEq] at h
        exact h ▸ ih (idx + 1) e2 hrec
      | ok cells => simp [hrec] at h

theorem npMin_err (xs : List ℚ) (e : PyErr) (h : npMin xs = Except.error e) :
    e = PyErr.valueError := by
  cases xs with
  | nil => simpa [npMin] using h.symm
  | cons x rest => simp [npMin] at h

theorem npMax_err (xs : List ℚ) (e : PyErr) (h : npMax xs = Except.error e) :
    e = PyErr.valueError := by
  cases xs with
  | nil => simpa [npMax] using h.symm
  | cons x rest => simp [npMax] at h

theorem formatMetricsGo_ok (rows : List (List Met)) :
    ∀ (names : List String) (idx : Nat) (cells : List (String × MetricCell)),
      formatMetricsGo rows idx names = Except.ok cells →
      cells.length = names.length ∧
      ∀ k name, names.get? k = some name →
        cells.get? k = some (name, metricCell rows (idx + k)) := by
  intro names
  induction names with
  | nil =>
    intro idx cells h
    simp only [formatMetricsGo, Except.ok.injEq] at h
    subst h
    exact ⟨rfl, by intro k name hk; simp at hk⟩
  | cons n rest ih =>
    intro idx cells h
    simp only [formatMetricsGo] at h
    cases hcol : npColumn rows idx with
    | error e => simp [hcol] at h
    | ok col =>
      simp only [hcol] at h
      cases hrec : formatMetricsGo rows (idx + 1) rest with
      | error e => simp [hrec] at h
      | ok cells2 =>
        simp only [hrec, Except.ok.injEq] at h
        subst h
        obtain ⟨hlen, hget⟩ := ih (idx + 1) cells2 hrec
        refine ⟨by simp [hlen], ?_⟩
        intro k name hk
        cases k with
        | zero =>
          simp only [List.get?_cons_zero, Option.some.injEq] at hk
          subst hk
          simp
        | succ k2 =>
          simp only [List.get?_cons_succ] at hk ⊢
          have h3 := hget k2 name hk
          rw [h3]
          have h4 : idx + 1 + k2 = idx + (k2 + 1) := by omega
          rw [h4]

theorem epEndCompute_ok_inv (s : EpState) (E : Nat) (t : ℚ) (summ : Summary)
    (hc : epEndCompute s E t = Except.ok summ) :
    ∃ t0 obs rows cells, s.episode_start E = some t0 ∧ s.observations E = some obs ∧
      s.metrics E = some rows ∧ formatMetrics s.metrics_names rows = Except.ok cells ∧
      t - t0 ≠ 0 ∧
      summ.duration = t - t0 ∧ summ.steps = obs.length ∧
      summ.sps = (obs.length : ℚ) / (t - t0) ∧ summ.metrics = cells := by
  unfold epEndCompute at hc
  cases h0 : s.episode_start E with
  | none => simp [h0] at hc
  | some t0 =>
    simp only [h0] at hc
    cases ho : s.observations E with
    | none => simp [ho] at hc
    | some obs =>
      simp only [ho] at hc
      cases hm : s.metrics E with
      | none => simp [hm] at hc
      | some rows =>
        simp only [hm] at hc
        cases hf : formatMetrics s.metrics_names rows with
        | error e => simp [hf] at hc
        | ok cells =>
          simp only [hf] at hc
          by_cases hd : t - t0 = 0
          · rw [if_pos hd] at hc; simp at hc
          · rw [if_neg hd] at hc
            refine ⟨t0, obs, rows, cells, rfl, rfl, rfl, hf, hd, ?_⟩
            cases hr : s.rewards E with
            | none => simp [hr] at hc
            | some rws =>
              simp only [hr] at hc
              cases hmin : npMin rws with
              | error e => simp [hmin] at hc
              | ok rmin =>
                simp only [hmin] at hc
                cases hmax : npMax rws with
                | error e => simp [hmax] at hc
                | ok rmax =>
                  simp only [hmax] at hc
                  cases ha : s.actions E with
                  | none => simp [ha] at hc
                  | some acts =>
                    simp only [ha] at hc
                    cases hamin : npMin acts with
                    | error e => simp [hamin] at hc
                    | ok amin =>
                      simp only [hamin] at hc
                      cases hamax : npMax acts with
                      | error e => simp [hamax] at hc
                      | ok amax =>
                        simp only [hamax] at hc
                        cases homin : npMin obs.flatten with
                        | error e => simp [homin] at hc
                        | ok omin =>
                          simp only [homin] at hc
                          cases homax : npMax obs.flatten with
                          | error e => simp [homax] at hc
                          | ok omax =>
                            simp only [homax, Except.ok.injEq] at hc
                            subst hc
                            exact ⟨rfl, rfl, rfl, rfl⟩

theorem epEndCompute_err_inv (s : EpState) (E : Nat) (t : ℚ) (e : PyErr)
    (hc : epEndCompute s E t = Except.error e) :
    e = PyErr.keyError ∨ e = PyErr.indexError ∨ e = PyErr.valueError ∨
    (e = PyErr.zeroDivisionError ∧ ∃ t0, s.episode_start E = some t0 ∧ t - t0 = 0) := by
  unfold epEndCompute at hc
  cases h0 : s.episode_start E with
  | none =>
    simp only [h0, Except.error.injEq] at hc
    exact Or.inl hc.symm
  | some t0 =>
    simp only [h0] at hc
    cases ho : s.observations E with
    | none =>
      simp only [ho, Except.error.injEq] at hc
      exact Or.inl hc.symm
    | some obs =>
      simp only [ho] at hc
      cases hm : s.metrics E with
      | none =>
        simp only [hm, Except.error.injEq] at hc
        exact Or.inl hc.symm
      | some rows =>
        simp only [hm] at hc
        cases hf : formatMetrics s.metrics_names rows with
        | error e2 =>
          simp only [hf, Except.error.injEq] at hc
          exact Or.inr (Or.inl (hc ▸ formatMetricsGo_err rows s.metrics_names 0 e2 hf))
        | ok cells =>
          simp only [hf] at hc
          by_cases hd : t - t0 = 0
          · rw [if_pos hd] at hc
            simp only [Except.error.injEq] at hc
            exact Or.inr (Or.inr (Or.inr ⟨hc.symm, t0, rfl, hd⟩))
          · rw [if_neg hd] at hc
            cases hr : s.rewards E with
            | none =>
              simp only [hr, Except.error.injEq] at hc
              exact Or.inl hc.symm
            | some rws =>
              simp only [hr] at hc
              cases hmin : npMin rws with
              | error e2 =>
                simp only [hmin, Except.error.injEq] at hc
                exact Or.inr (Or.inr (Or.inl (hc ▸ npMin_err rws e2 hmin)))
              | ok rmin =>
                simp only [hmin] at hc
                cases hmax : npMax rws with
                | error e2 =>
                  simp only [hmax, Except.error.injEq] at hc
                  exact Or.inr (Or.inr (Or.inl (hc ▸ npMax_err rws e2 hmax)))
                | ok rmax =>
                  simp only [hmax] at hc
                  cases ha : s.actions E with
                  | none =>
                    simp only [ha, Except.error.injEq] at hc
                    exact Or.inl hc.symm
                  | some acts =>
                    simp only [ha] at hc
                    cases hamin : npMin acts with
                    | error e2 =>
                      simp only [hamin, Except.error.injEq] at hc
                      exact Or.inr (Or.inr (Or.inl (hc ▸ npMin_err acts e2 hamin)))
                    | ok amin =>
                      simp only [hamin] at hc
                      cases hamax : npMax acts with
                      | error e2 =>
                        simp only [hamax, Except.error.injEq] at hc
                        exact Or.inr (Or.inr (Or.inl (hc ▸ npMax_err acts e2 hamax)))
                      | ok amax =>
                        simp only [hamax] at hc
                        cases homin : npMin obs.flatten with
                        | error e2 =>
                          simp only [homin, Except.error.injEq] at hc
                          exact Or.inr (Or.inr (Or.inl (hc ▸ npMin_err obs.flatten e2 homin)))
                        | ok omin =>
                          simp only [homin] at hc
                          cases homax : npMax obs.flatten with
                          | error e2 =>
                            simp only [homax, Except.error.injEq] at hc
                            exact Or.inr (Or.inr (Or.inl (hc ▸ npMax_err obs.flatten e2 homax)))
                          | ok omax =>
                            simp [homax] at hc

def evsZeroDur : List Ev :=
  [Ev.epBegin 0 5, Ev.stepEnd 0 ⟨[[1]], 1, 1, []⟩, Ev.epEnd 0 5]

/-- Counterexample to C7 as stated: an episode whose measured duration is
exactly `0` makes `float(steps) / duration` raise `ZeroDivisionError`; no
summary line is produced and the episode-end crashes instead of being
guarded. -/
theorem zero_duration_crashes_summary :
    (runEvents (initEpState []) evsZeroDur).err = some PyErr.zeroDivisionError ∧
    (runEvents (initEpState []) evsZeroDur).out = [] := by
  exact ⟨by decide, by decide⟩

/-- C7 (amended): the code contains no explicit guard; instead, whenever the
measured duration `t - t0` is nonzero, the steps-per-second division cannot
raise (`ZeroDivisionError` is never the reported error), and a summary that is
produced reports `duration = t - t0` and `sps = steps / (t - t0)`.  When the
duration is zero the episode-end raises `ZeroDivisionError` and emits
nothing. -/
theorem sps_division_unguarded (s : EpState) (E : Nat) (t t0 : ℚ)
    (h0 : s.episode_start E = some t0) (hd : t - t0 ≠ 0) :
    (onEpisodeEnd s E t).err ≠ some PyErr.zeroDivisionError ∧
    ∀ ep summ, (onEpisodeEnd s E t).out = some (ep, summ) →
      summ.duration = t - t0 ∧ summ.sps = (summ.steps : ℚ) / (t - t0) := by
  constructor
  · intro hbad
    cases hc : epEndCompute s E t with
    | error e =>
      have he : some e = some PyErr.zeroDivisionError := by
        rw [onEpisodeEnd, hc] at hbad
        exact hbad
      rcases epEndCompute_err_inv s E t e hc with h | h | h | ⟨_, t1, ht1, hz⟩
      · simp [h] at he
      · simp [h] at he
      · simp [h] at he
      · rw [h0] at ht1
        have : t0 = t1 := by simpa using ht1
        exact hd (this ▸ hz)
    | ok summ => rw [onEpisodeEnd, hc] at hbad; simp at hbad
  · intro ep summ hout
    cases hc : epEndCompute s E t with
    | error e => rw [onEpisodeEnd, hc] at hout; simp at hout
    | ok summ2 =>
      rw [onEpisodeEnd, hc] at hout
      simp only [Option.some.injEq, Prod.mk.injEq] at hout
      obtain ⟨t1, obs, rows, cells, h1, _, _, _, _, hdur, hsteps, hsps, _⟩ :=
        epEndCompute_ok_inv s E t summ2 hc
      rw [h0] at h1
      have ht : t0 = t1 := by simpa using h1
      subst ht
      rw [← hout.2, hdur, hsps, hsteps]
      exact ⟨rfl, rfl⟩

def c7State : EpState :=
  ⟨fun k => if k = 0 then some 0 else none,
   fun k => if k = 0 then some [[1], [1], [1]] else none,
   fun k => if k = 0 then some [1, 2, 3] else none,
   fun k => if k = 0 then some [2, 2, 2] else none,
   fun k => if k = 0 then some [[], [], []] else none,
   []⟩

/-- Witness for C7 (amended), on a three-step episode of duration 2. -/
theorem sps_division_unguarded_witness :
    (onEpisodeEnd c7State 0 2).err ≠ some PyErr.zeroDivisionError ∧
    (3 : ℚ) / (2 - 0) = 3 / 2 := by
  refine ⟨(sps_division_unguarded c7State 0 2 0 (by decide) (by decide)).1, rfl⟩

def c8State : EpState :=
  ⟨fun k => if k = 0 then some 0 else none,
   fun k => if k = 0 then some [[1], [1]] else none,
   fun k => if k = 0 then some [1, 1] else none,
   fun k => if k = 0 then some [1, 1] else none,
   fun k => if k = 0 then some [[none, some 1], [none, some 3]] else none,
   ["a", "b"]⟩

/-- C8: in the episode-end summary, a metric column whose recorded values are
all NaN over the whole episode is rendered as the `'--'` placeholder next to
its metric name, while every other column is rendered as the numeric mean of
its non-NaN values; the cells appear in declared-name order. -/
theorem all_nan_column_renders_dashes (s : EpState) (E : Nat) (t : ℚ) (ep : Nat)
    (summ : Summary) (rows : List (List Met))
    (hout : (onEpisodeEnd s E t).out = some (ep, summ)) (hrows : s.metrics E = some rows) :
    summ.metrics.length = s.metrics_names.length ∧
    ∀ idx name, s.metrics_names.get? idx = some name →
      summ.metrics.get? idx = some (name, metricCell rows idx) ∧
      ((npColumnD rows idx).filterMap id = [] → metricCell rows idx = MetricCell.dashes) ∧
      ∀ vs, (npColumnD rows idx).filterMap id = vs → vs ≠ [] →
        metricCell rows idx = MetricCell.num (vs.sum / (vs.length : ℚ)) := by
  cases hc : epEndCompute s E t with
  | error e => rw [onEpisodeEnd, hc] at hout; simp at hout
  | ok summ2 =>
    rw [onEpisodeEnd, hc] at hout
    simp only [Option.some.injEq, Prod.mk.injEq] at hout
    obtain ⟨t1, obs, rows2, cells, _, _, hm, hf, _, _, _, _, hcells⟩ :=
      epEndCompute_ok_inv s E t summ2 hc
    rw [hrows] at hm
    have hrw : rows = rows2 := by simpa using hm
    subst hrw
    obtain ⟨hlen, hget⟩ := formatMetricsGo_ok rows s.metrics_names 0 cells hf
    have hsm : summ.metrics = cells := by rw [← hout.2]; exact hcells
    refine ⟨by rw [hsm, hlen], ?_⟩
    intro idx name hname
    refine ⟨by rw [hsm]; simpa using hget idx name hname, ?_, ?_⟩
    · intro hempty
      simp [metricCell, nanmeanList, hempty]
    · intro vs hvs hne
      simp [metricCell, nanmeanList, hvs, hne]

def c8Summ : Summary :=
  ⟨1, 1, 2, 2, 2, 1, 1, 1, 1, 1, 1, 1, 1, 1, [("a", MetricCell.dashes), ("b", MetricCell.num 2)]⟩

/-- Witness for C8: an episode with metric rows `[NaN, 1.0]` and `[NaN, 3.0]`
renders column `a` as the placeholder and column `b` as the mean `2`. -/
theorem all_nan_column_renders_dashes_witness :
    (onEpisodeEnd c8State 0 1).out = some (0, c8Summ) ∧
    c8Summ.metrics.get? 0 = some ("a", MetricCell.dashes) ∧
    c8Summ.metrics.get? 1 = some ("b", MetricCell.num 2) := by
  refine ⟨by decide, ?_, ?_⟩
  · have h := (all_nan_column_renders_dashes c8State 0 1 0 c8Summ
      [[none, some 1], [none, some 3]] (by decide) (by decide)).2 0 "a" (by decide)
    rw [h.1]
    decide
  · have h := (all_nan_column_renders_dashes c8State 0 1 0 c8Summ
      [[none, some 1], [none, some 3]] (by decide) (by decide)).2 1 "b" (by decide)
    rw [h.1]
    decide

def c9Step (r : ℚ) : StepLogs := ⟨[[1]], r, 2, []⟩

def c9Events : List Ev :=
  [Ev.epBegin 0 0, Ev.stepEnd 0 (c9Step 1), Ev.stepEnd 0 (c9Step 2),
   Ev.stepEnd 0 (c9Step 3), Ev.epEnd 0 2]

def c9Expected : Summary := ⟨1, 2, 3, 3 / 2, 6, 2, 1, 3, 2, 2, 2, 1, 1, 1, []⟩

set_option maxRecDepth 40000 in
/-- C9: an episode with rewards `[1.0, 2.0, 3.0]` over a measured duration of
exactly `2.0` seconds produces a summary with `episode_reward` formatted as
`6.000`, reward mean `2.000`, min `1.000`, max `3.000`, and steps per second
`3 / 2.0` formatted to zero decimals as `2`; the rendered line follows the
fixed template field order with three-decimal formatting for durations,
rewards, actions and observations, integer step counts and zero-decimal
steps-per-second. -/
theorem summary_formatting_and_field_order :
    (runEvents (initEpState []) c9Events).out = [(0, c9Expected)] ∧
    formatFixed c9Expected.episode_reward 3 = "6.000" ∧
    formatFixed c9Expected.reward_mean 3 = "2.000" ∧
    formatFixed c9Expected.reward_min 3 = "1.000" ∧
    formatFixed c9Expected.reward_max 3 = "3.000" ∧
    c9Expected.sps = 3 / 2 ∧
    formatFixed c9Expected.sps 0 = "2" ∧
    renderSummary c9Expected =
      "Episode 1: 2.000s, steps: 3, steps per second: 2, episode reward: 6.000, reward: 2.000 [1.000, 3.000], action: 2.000 [2.000, 2.000], observations: 1.000 [1.000, 1.000], " := by
  refine ⟨by decide, by decide, by decide, by decide, by decide, by decide, by decide, ?_⟩
  decide

/-- C5: a step-begin resets the interval window (new start timestamp, fresh
progress bar, cleared metric buffer) and prints the interval-start marker
exactly when the step counter is a multiple of the window size; otherwise the
state is untouched and nothing is printed. -/
theorem interval_reset_iff_multiple (s : IntervalState) (t : ℚ) (h : 0 < s.interval) :
    ((onIntervalStepBegin s t).printed = true ↔ s.steps % s.interval = 0) ∧
    (s.steps % s.interval = 0 → onIntervalStepBegin s t = ⟨intervalReset s t, none, true⟩) ∧
    (s.steps % s.interval ≠ 0 → onIntervalStepBegin s t = ⟨s, none, false⟩) := by
  have h0 : s.interval ≠ 0 := Nat.pos_iff_ne_zero.mp h
  by_cases hm : s.steps % s.interval = 0
  · simp [onIntervalStepBegin, h0, hm]
  · simp [onIntervalStepBegin, h0, hm]

def c5State (n : Nat) : IntervalState := ⟨10, n, 0, ⟨10, []⟩, [], []⟩

/-- Witness for C5: with window size 10, step counters 0 and 10 trigger the
reset and marker; step counter 9 does not. -/
theorem interval_reset_iff_multiple_witness :
    (0 : Nat) < 10 ∧
    (onIntervalStepBegin (c5State 0) 3).printed = true ∧
    (onIntervalStepBegin (c5State 10) 3).printed = true ∧
    onIntervalStepBegin (c5State 9) 3 = ⟨c5State 9, none, false⟩ := by
  refine ⟨by decide, ?_, ?_, ?_⟩
  · exact (interval_reset_iff_multiple (c5State 0) 3 (by decide)).1.mpr (by decide)
  · exact (interval_reset_iff_multiple (c5State 10) 3 (by decide)).1.mpr (by decide)
  · exact (interval_reset_iff_multiple (c5State 9) 3 (by decide)).2.2 (by decide)

theorem computeFilteredGo_ok (buffer : List (List Met)) (names : List String)
    (hw : ∀ r ∈ buffer, r.length = names.length) :
    ∀ (raw : List Met) (idx : Nat), idx + raw.length ≤ names.length →
      computeFilteredGo buffer names idx raw = Except.ok (filteredSpecList buffer idx raw) := by
  intro raw
  induction raw with
  | nil => intro idx _; simp [computeFilteredGo, filteredSpecList]
  | cons v vs ih =>
    intro idx hle
    have hidx : idx < names.length := by
      simp only [List.length_cons] at hle
      omega
    have hAt : filteredAt buffer names idx v = Except.ok (filteredSpec buffer idx v) := by
      cases v with
      | some x => rfl
      | none =>
        by_cases hb : buffer.isEmpty
        · simp [filteredAt, filteredSpec, hb]
        · cases buffer with
          | nil => simp at hb
          | cons r rest =>
            have hrect : ∀ x ∈ rest, x.length = r.length := by
              intro x hx
              rw [hw x (List.mem_cons_of_mem r hx), hw r (List.mem_cons_self r rest)]
            have hnm : npNanmeanAxis0 (r :: rest) =
                Except.ok ((List.range r.length).map
                  (fun i => nanmeanList (npColumnD (r :: rest) i))) := by
              simp only [npNanmeanAxis0]
              rw [if_pos hrect]
            have hrlen : r.length = names.length := hw r (List.mem_cons_self r rest)
            have hget2 : (List.range names.length)[idx]? = some idx := by
              simp [List.getElem?_range, hidx]
            simp [filteredAt, filteredSpec, hnm, hrlen, hget2]
    simp only [computeFilteredGo, hAt]
    have hrec := ih (idx + 1) (by simp only [List.length_cons] at hle; omega)
    simp only [hrec]
    simp [filteredSpecList]

theorem filteredSpecList_get (buffer : List (List Met)) :
    ∀ (raw : List Met) (idx k : Nat) (v : Met), raw.get? k = some v →
      (filteredSpecList buffer idx raw).get? k = some (filteredSpec buffer (idx + k) v) := by
  intro raw
  induction raw with
  | nil => intro idx k v h; simp at h
  | cons w ws ih =>
    intro idx k v h
    cases k with
    | zero =>
      simp only [List.get?_cons_zero, Option.some.injEq] at h
      subst h
      simp [filteredSpecList]
    | succ k2 =>
      simp only [List.get?_cons_succ] at h
      simp only [filteredSpecList, List.get?_cons_succ]
      have h2 := ih (idx + 1) k2 v h
      rw [h2]
      have h4 : idx + 1 + k2 = idx + (k2 + 1) := by omega
      rw [h4]

/-- C6: in the interval logger's step-end, provided the buffered metric rows
have the declared width, the incoming vector is no wider than the declared
names and the window size is nonzero, the call succeeds; each non-NaN metric
keeps its raw value, each NaN metric is replaced by the running column-wise
nanmean of the vectors buffered so far in the window (or stays NaN when the
window buffer is empty), and the raw (unsubstituted) vector is appended to the
window buffer. -/
theorem interval_nan_substitution (s : IntervalState) (reward : ℚ) (raw : List Met)
    (hw : ∀ r ∈ s.metrics, r.length = s.metrics_names.length)
    (hlen : raw.length ≤ s.metrics_names.length) (hint : s.interval ≠ 0) :
    (intervalOnStepEnd s reward raw).err = none ∧
    (intervalOnStepEnd s reward raw).state.metrics = s.metrics ++ [raw] ∧
    (intervalOnStepEnd s reward raw).filtered = filteredSpecList s.metrics 0 raw ∧
    ∀ idx v, raw.get? idx = some v →
      (intervalOnStepEnd s reward raw).filtered.get? idx =
        some (filteredSpec s.metrics idx v) := by
  have hcf : computeFiltered s.metrics s.metrics_names raw =
      Except.ok (filteredSpecList s.metrics 0 raw) :=
    computeFilteredGo_ok s.metrics s.metrics_names hw raw 0 (by simpa using hlen)
  refine ⟨?_, ?_, ?_, ?_⟩
  · simp [intervalOnStepEnd, hcf, hint]
  · simp [intervalOnStepEnd, hcf, hint]
  · simp [intervalOnStepEnd, hcf, hint]
  · intro idx v hv
    have hfl : (intervalOnStepEnd s reward raw).filtered = filteredSpecList s.metrics 0 raw := by
      simp [intervalOnStepEnd, hcf, hint]
    rw [hfl]
    have h2 := filteredSpecList_get s.metrics raw 0 idx v hv
    simpa using h2

def c6State : IntervalState := ⟨10, 1, 0, ⟨10, []⟩, [[some 1, none]], ["a", "b"]⟩

/-- Witness for C6: with window buffer `[[1.0, NaN]]` and incoming metrics
`[NaN, 2.0]`, index 0 is substituted by `1.0` (the column nanmean), index 1
keeps its raw `2.0`, and the raw vector is appended to the buffer. -/
theorem interval_nan_substitution_witness :
    (intervalOnStepEnd c6State 0 [none, some 2]).err = none ∧
    (intervalOnStepEnd c6State 0 [none, some 2]).state.metrics =
      [[some 1, none], [none, some 2]] ∧
    (intervalOnStepEnd c6State 0 [none, some 2]).filtered = [some 1, some 2] := by
  have h := interval_nan_substitution c6State 0 [none, some 2]
    (by decide) (by decide) (by decide)
  refine ⟨h.1, ?_, ?_⟩
  · rw [h.2.1]; decide
  · rw [h.2.2.1]; decide

theorem processEv_frame (s : EpState) (e : Ev) (E : Nat) (h : evEpisode e ≠ E) :
    bufAt (processEv s e).state E = bufAt s E ∧
    (processEv s e).state.metrics_names = s.metrics_names ∧
    ∀ p ∈ (processEv s e).out.toList, p.1 ≠ E := by
  cases e with
  | epBegin ep t =>
    have hne : ¬(E = ep) := fun hh => h (by simp [evEpisode, hh])
    refine ⟨?_, rfl, by simp [processEv]⟩
    simp [processEv, onEpisodeBegin, bufAt, updMap, hne]
  | stepEnd ep l =>
    have hne : ¬(E = ep) := fun hh => h (by simp [evEpisode, hh])
    have key : bufAt (onStepEnd s ep l).1 E = bufAt s E ∧
        (onStepEnd s ep l).1.metrics_names = s.metrics_names := by
      cases ho : s.observations ep with
      | none => simp [onStepEnd, ho]
      | some obs =>
        cases hr : s.rewards ep with
        | none => simp [onStepEnd, ho, hr, bufAt, updMap, hne]
        | some rs =>
          cases ha : s.actions ep with
          | none => simp [onStepEnd, ho, hr, ha, bufAt, updMap, hne]
          | some as2 =>
            cases hmm : s.metrics ep with
            | none => simp [onStepEnd, ho, hr, ha, hmm, bufAt, updMap, hne]
            | some ms => simp [onStepEnd, ho, hr, ha, hmm, bufAt, updMap, hne]
    exact ⟨key.1, key.2, by simp [processEv]⟩
  | epEnd ep t =>
    have hne : ¬(E = ep) := fun hh => h (by simp [evEpisode, hh])
    have hne2 : ep ≠ E := fun hh => hne hh.symm
    cases hc : epEndCompute s ep t with
    | error e2 =>
      refine ⟨?_, ?_, ?_⟩ <;> simp [processEv, onEpisodeEnd, hc]
    | ok summ =>
      refine ⟨?_, ?_, ?_⟩
      · simp [processEv, onEpisodeEnd, hc, purge, bufAt, updMap, hne]
      · simp [processEv, onEpisodeEnd, hc, purge]
      · intro p hp
        simp only [processEv, onEpisodeEnd, hc, Option.toList_some, List.mem_singleton] at hp
        subst hp
        exact hne2

theorem processEv_congr (s s2 : EpState) (e : Ev) (E : Nat)
    (hb : bufAt s E = bufAt s2 E) (hn : s.metrics_names = s2.metrics_names)
    (he : evEpisode e = E) :
    (processEv s e).err = (processEv s2 e).err ∧
    (processEv s e).out = (processEv s2 e).out ∧
    bufAt (processEv s e).state E = bufAt (processEv s2 e).state E ∧
    (processEv s e).state.metrics_names = s.metrics_names ∧
    (processEv s2 e).state.metrics_names = s2.metrics_names := by
  have h1 : s.episode_start E = s2.episode_start E := congrArg (fun x => x.1) hb
  have h2 : s.observations E = s2.observations E := congrArg (fun x => x.2.1) hb
  have h3 : s.rewards E = s2.rewards E := congrArg (fun x => x.2.2.1) hb
  have h4 : s.actions E = s2.actions E := congrArg (fun x => x.2.2.2.1) hb
  have h5 : s.metrics E = s2.metrics E := congrArg (fun x => x.2.2.2.2) hb
  cases e with
  | epBegin ep t =>
    have hE : ep = E := by simpa [evEpisode] using he
    subst hE
    refine ⟨rfl, rfl, ?_, rfl, rfl⟩
    simp [processEv, onEpisodeBegin, bufAt, updMap]
  | stepEnd ep l =>
    have hE : ep = E := by simpa [evEpisode] using he
    subst hE
    have key : (onStepEnd s ep l).2 = (onStepEnd s2 ep l).2 ∧
        bufAt (onStepEnd s ep l).1 ep = bufAt (onStepEnd s2 ep l).1 ep ∧
        (onStepEnd s ep l).1.metrics_names = s.metrics_names ∧
        (onStepEnd s2 ep l).1.metrics_names = s2.metrics_names := by
      cases ho : s2.observations ep with
      | none =>
        have ho1 : s.observations ep = none := h2.trans ho
        simp [onStepEnd, ho, ho1, bufAt, h1, h2, h3, h4, h5]
      | some obs =>
        have ho1 : s.observations ep = some obs := h2.trans ho
        cases hr : s2.rewards ep with
        | none =>
          have hr1 : s.rewards ep = none := h3.trans hr
          simp [onStepEnd, ho, ho1, hr, hr1, bufAt, updMap, h1, h2, h3, h4, h5]
        | some rs =>
          have hr1 : s.rewards ep = some rs := h3.trans hr
          cases ha : s2.actions ep with
          | none =>
            have ha1 : s.actions ep = none := h4.trans ha
            simp [onStepEnd, ho, ho1, hr, hr1, ha, ha1, bufAt, updMap, h1, h2, h3, h4, h5]
          | some as2 =>
            have ha1 : s.actions ep = some as2 := h4.trans ha
            cases hmm : s2.metrics ep with
            | none =>
              have hm1 : s.metrics ep = none := h5.trans hmm
              simp [onStepEnd, ho, ho1, hr, hr1, ha, ha1, hmm, hm1, bufAt, updMap,
                h1, h2, h3, h4, h5]
            | some ms =>
              have hm1 : s.metrics ep = some ms := h5.trans hmm
              simp [onStepEnd, ho, ho1, hr, hr1, ha, ha1, hmm, hm1, bufAt, updMap,
                h1, h2, h3, h4, h5]
    exact ⟨key.1, rfl, key.2.1, key.2.2.1, key.2.2.2⟩
  | epEnd ep t =>
    have hE : ep = E := by simpa [evEpisode] using he
    subst hE
    have hcomp : epEndCompute s ep t = epEndCompute s2 ep t := by
      unfold epEndCompute
      rw [h1, h2, h3, h4, h5, hn]
    cases hc : epEndCompute s2 ep t with
    | error e2 =>
      refine ⟨?_, ?_, ?_, ?_, ?_⟩ <;> simp [processEv, onEpisodeEnd, hcomp, hc, hb]
    | ok summ =>
      refine ⟨?_, ?_, ?_, ?_, ?_⟩ <;>
        simp [processEv, onEpisodeEnd, hcomp, hc, purge, bufAt, updMap]

theorem run_interleave_aux (E1 E2 : Nat) (hne : E1 ≠ E2) :
    ∀ (evs1 evs2 evs : List Ev), Interleave evs1 evs2 evs →
      (∀ e ∈ evs1, evEpisode e = E1) → (∀ e ∈ evs2, evEpisode e = E2) →
      ∀ s s2, bufAt s E1 = bufAt s2 E1 → s.metrics_names = s2.metrics_names →
        (runEvents s evs).err = none →
        (runEvents s evs).out.filter (fun p => p.1 == E1) =
          (runEvents s2 evs1).out.filter (fun p => p.1 == E1) := by
  intro evs1 evs2 evs hI
  induction hI with
  | nil =>
    intro _ _ s s2 _ _ _
    simp [runEvents]
  | left hI2 ih =>
    rename_i a l1 l2 l
    intro hm1 hm2 s s2 hb hn hok
    have hea : evEpisode a = E1 := hm1 a (List.mem_cons_self a l1)
    obtain ⟨herr, hout, hb2, hn1, hn2⟩ := processEv_congr s s2 a E1 hb hn hea
    cases hpe : (processEv s a).err with
    | some er => simp [runEvents, hpe] at hok
    | none =>
      have hpe2 : (processEv s2 a).err = none := herr.symm.trans hpe
      have hok2 : (runEvents (processEv s a).state l).err = none := by
        simpa [runEvents, hpe] using hok
      simp only [runEvents, hpe, hpe2]
      rw [List.filter_append, List.filter_append, hout]
      congr 1
      exact ih (fun e hee => hm1 e (List.mem_cons_of_mem a hee)) hm2
        (processEv s a).state (processEv s2 a).state hb2
        (hn1.trans (hn.trans hn2.symm)) hok2
  | right hI2 ih =>
    rename_i a l1 l2 l
    intro hm1 hm2 s s2 hb hn hok
    have hea : evEpisode a = E2 := hm2 a (List.mem_cons_self a l2)
    have hne2 : evEpisode a ≠ E1 := by rw [hea]; exact Ne.symm hne
    obtain ⟨hbf, hnf, houtf⟩ := processEv_frame s a E1 hne2
    cases hpe : (processEv s a).err with
    | some er => simp [runEvents, hpe] at hok
    | none =>
      have hok2 : (runEvents (processEv s a).state l).err = none := by
        simpa [runEvents, hpe] using hok
      simp only [runEvents, hpe]
      rw [List.filter_append]
      have hfilter : (processEv s a).out.toList.filter (fun p => p.1 == E1) = [] := by
        cases hout : (processEv s a).out with
        | none => simp
        | some p =>
          have hp := houtf p (by simp [hout])
          have hpb : (p.1 == E1) = false := beq_eq_false_iff_ne.mpr hp
          simp [List.filter, hpb]
      rw [hfilter, List.nil_append]
      exact ih hm1 (fun e hee => hm2 e (List.mem_cons_of_mem a hee))
        (processEv s a).state s2 (hbf.trans hb) (hnf.trans hn) hok2

/-- C4: for every interleaving of the event sequences of two distinct episode
identifiers fed to `TrainEpisodeLogger` that runs without an exception, the
summaries emitted for the first identifier — duration, step count,
reward/action/observation aggregates and metric means — are exactly those
emitted when its sequence runs alone: they depend only on the steps recorded
under that identifier. -/
theorem interleaved_episodes_independent (E1 E2 : Nat) (evs1 evs2 evs : List Ev)
    (s0 : EpState) (hI : Interleave evs1 evs2 evs)
    (hm1 : ∀ e ∈ evs1, evEpisode e = E1) (hm2 : ∀ e ∈ evs2, evEpisode e = E2)
    (hne : E1 ≠ E2) (hok : (runEvents s0 evs).err = none) :
    (runEvents s0 evs).out.filter (fun p => p.1 == E1) =
      (runEvents s0 evs1).out.filter (fun p => p.1 == E1) :=
  run_interleave_aux E1 E2 hne evs1 evs2 evs hI hm1 hm2 s0 s0 rfl rfl hok

def c4Step (ep : Nat) : Ev := Ev.stepEnd ep ⟨[[1]], 1, 1, []⟩

def c4evs1 : List Ev := [Ev.epBegin 0 0, c4Step 0, Ev.epEnd 0 1]

def c4evs2 : List Ev := [Ev.epBegin 1 0, c4Step 1, Ev.epEnd 1 1]

def c4evs : List Ev :=
  [Ev.epBegin 0 0, Ev.epBegin 1 0, c4Step 0, c4Step 1, Ev.epEnd 0 1, Ev.epEnd 1 1]

/-- Witness for C4: two fully interleaved one-step episodes; the summaries
tagged with episode 0 match those of episode 0's solo run. -/
theorem interleaved_episodes_independent_witness :
    (runEvents (initEpState []) c4evs).err = none ∧
    (runEvents (initEpState []) c4evs).out.filter (fun p => p.1 == 0) =
      (runEvents (initEpState []) c4evs1).out.filter (fun p => p.1 == 0) := by
  refine ⟨by decide, ?_⟩
  exact interleaved_episodes_independent 0 1 c4evs1 c4evs2 c4evs (initEpState [])
    (Interleave.left (Interleave.right (Interleave.left (Interleave.right
      (Interleave.left (Interleave.right Interleave.nil))))))
    (by decide) (by decide) (by decide) (by decide)

end MainTheorems
